import Mathlib

/-!
Shallow embedding of the `rusti` REPL core (files `src/rusti/repl.rs` and
`src/rusti/exec.rs`) and proofs about it.

External collaborators (the rustc frontend, LLVM, the filesystem, the input
parser) are modelled as explicit oracle parameters; every function of the
repository itself is translated directly from its Rust source.  Panics of the
repository's own code are modelled as `none` / `Except.error` results.
-/

namespace Rusti

/-- Modelled from the spec: the view-item tag of the missing `input.rs`.
A view-item is tagged either as a crate import (`extern crate`) or as an
other import (`use`); the derived order in `repl.rs` sorts `extern crate`
before `use` (comment at `repl.rs:200`). -/
inductive ViewItem where
  | ExternCrate : ViewItem
  | Use : ViewItem
deriving DecidableEq

/-- The derived total order on view-item tags: `ExternCrate` sorts before
`Use`.  `a.le b` is `a.cmp(&b) != Greater` of the Rust `Ord` derive. -/
def ViewItem.le : ViewItem → ViewItem → Bool
  | ViewItem.ExternCrate, _ => true
  | ViewItem.Use, ViewItem.Use => true
  | ViewItem.Use, ViewItem.ExternCrate => false

/-- The comparator passed to `sort_by` in `Repl::build_program`:
`|&(a, _), &(b, _)| a.cmp(&b)`, read as a `le` relation for the stable sort. -/
def viewItemPairLe (a b : ViewItem × String) : Bool :=
  ViewItem.le a.1 b.1

/-- One parsed fragment (`Input` of the missing `input.rs`, as used by
`Repl::handle_input` and `Repl::build_program`). -/
structure Input where
  attributes : List String
  view_items : List (ViewItem × String)
  items : List String
  statements : List String
  last_expr : Bool
deriving DecidableEq

/-- An LLVM module handle (`llvm::ModuleRef`).  A module is identified by its
contents here; the named functions and globals it defines are carried as
association lists from symbol name to (non-null) address
(`LLVMGetNamedFunction` / `LLVMGetNamedGlobal` / `LLVMGetPointerToGlobal`). -/
structure ModuleRef where
  functions : List (String × Nat)
  globals : List (String × Nat)
deriving DecidableEq

/-- `ExecutionEngine` of `exec.rs`: the insertion-ordered module sequence, the
extra library search paths and the resolved sysroot (a path, kept as a list of
components). -/
structure ExecutionEngine where
  modules : List ModuleRef
  lib_paths : List String
  sysroot : List String
deriving DecidableEq

/-- `Repl` of `repl.rs`: the engine plus the three persistent session
sequences and the block-mode flag. -/
structure Repl where
  engine : ExecutionEngine
  attributes : List String
  view_items : List (ViewItem × String)
  items : List String
  read_block : Bool
deriving DecidableEq

/-- The view-item sequence emitted by `Repl::build_program`: session
view-items, then the input's (when present), stably sorted with
`vitems.sort_by(|&(a, _), &(b, _)| a.cmp(&b))`.  Rust's `sort_by` is a stable
merge sort, embedded as `List.mergeSort` with the same comparator. -/
def program_view_items (r : Repl) (input : Option Input) : List (ViewItem × String) :=
  match input with
  | some i => (r.view_items ++ i.view_items).mergeSort viewItemPairLe
  | none => r.view_items.mergeSort viewItemPairLe

/-- `Repl::build_program`: synthesize the complete program text from the
session sequences, the optional input and the trailing `program` text.  The
format string of `repl.rs:229` is reproduced verbatim (`connect("\n")` is
`String.intercalate "\n"`). -/
def build_program (r : Repl) (input : Option Input) (program : String) : String :=
  let attrs :=
    match input with
    | some i => r.attributes ++ i.attributes
    | none => r.attributes
  let vitems := program_view_items r input
  let items :=
    match input with
    | some i => r.items ++ i.items
    | none => r.items
  let attrsS := String.intercalate "\n" attrs
  let vitemsS := String.intercalate "\n" (vitems.map Prod.snd)
  let itemsS := String.intercalate "\n" items
  "#![allow(dead_code, unused_imports)]\n" ++ attrsS ++ "\n" ++ vitemsS ++ "\n"
    ++ itemsS ++ "\n" ++ program ++ "\n"

/-- The loop body shared by `ExecutionEngine::get_function` and
`ExecutionEngine::get_global`: scan a module list front to back and return
the first symbol hit (`for m in ... { if !v.is_null() { return Some(..) } }`). -/
def scanModules (f : ModuleRef → Option Nat) : List ModuleRef → Option Nat
  | [] => none
  | m :: rest =>
    match f m with
    | some v => some v
    | none => scanModules f rest

/-- `ExecutionEngine::get_function`: scan `self.modules.iter().rev()` for the
first module with a named function of this name; return its address. -/
def ExecutionEngine.get_function (ee : ExecutionEngine) (name : String) : Option Nat :=
  scanModules (fun m => m.functions.lookup name) ee.modules.reverse

/-- `ExecutionEngine::get_global`: scan `self.modules.iter().rev()` for the
first module with a named global of this name; return its address. -/
def ExecutionEngine.get_global (ee : ExecutionEngine) (name : String) : Option Nat :=
  scanModules (fun m => m.globals.lookup name) ee.modules.reverse

/-- `iter().position(pred)` of `ExecutionEngine::remove_module`. -/
def listPosition (pred : ModuleRef → Bool) : List ModuleRef → Option Nat
  | [] => none
  | x :: xs => if pred x then some 0 else (listPosition pred xs).map (· + 1)

/-- `ExecutionEngine::remove_module`: find the module's position
(`position(|p| *p == llmod)`), remove that entry (`Vec::remove`), and dispose
the module.  A missing module panics (`"Module not contained ..."`), modelled
as `none`; on success the returned pair is the new engine together with the
module handed to `LLVMDisposeModule` (its backing resources are destroyed). -/
def ExecutionEngine.remove_module (ee : ExecutionEngine) (llmod : ModuleRef) :
    Option (ExecutionEngine × ModuleRef) :=
  match listPosition (fun p => p == llmod) ee.modules with
  | some i => some ({ ee with modules := ee.modules.eraseIdx i }, llmod)
  | none => none

/-- A compile oracle stands for `compile_input(input, sysroot, libs)` of
`exec.rs`: from the source text, the sysroot and the library search paths it
yields either the compiled module plus its dependency paths (dependency-first),
or `none` for a failed compile (the spawned worker panicked). -/
def CompileOracle : Type :=
  String → List String → List String → Option (ModuleRef × List (List String))

/-- A load oracle stands for `llvm::LLVMRustLoadDynamicLibrary`: whether
loading the dynamic library at a path succeeds. -/
def LoadOracle : Type := List String → Bool

/-- `ExecutionEngine::load_deps`: load every dependency, panicking at the
first failure (`"Failed to load crate ..."`); `true` means all loads
succeeded. -/
def load_deps (loadLib : LoadOracle) (deps : List (List String)) : Bool :=
  deps.all loadLib

/-- `ExecutionEngine::add_module`: compile the input with the engine's sysroot
and search paths; on compile failure return `none` with the engine unchanged;
on success load the dependencies (a load failure panics, modelled as
`Except.error`), push the module onto the sequence and return it. -/
def ExecutionEngine.add_module (compile : CompileOracle) (loadLib : LoadOracle)
    (ee : ExecutionEngine) (input : String) :
    Except String (Option (ExecutionEngine × ModuleRef)) :=
  match compile input ee.sysroot ee.lib_paths with
  | none => Except.ok none
  | some (llmod, deps) =>
    if load_deps loadLib deps then
      Except.ok (some ({ ee with modules := ee.modules ++ [llmod] }, llmod))
    else
      Except.error "Failed to load crate"

/-- The scan of `get_sysroot` over the directories of `PATH`: the first
directory containing a file named `rustc` is popped one component
(`p.pop()`) and returned. -/
def sysrootSearch (isFileAt : List String → Bool) : List (List String) → Option (List String)
  | [] => none
  | p :: rest =>
    if isFileAt (p ++ ["rustc"]) then some p.dropLast else sysrootSearch isFileAt rest

/-- `get_sysroot` of `exec.rs`: split the `PATH` environment variable (here
an explicit `Option` of directories, each a component list) and search it for
the `rustc` executable; when `PATH` is unset or no directory contains `rustc`,
the function panics (`"Could not find sysroot"`), modelled as `none`. -/
def get_sysroot (pathEnv : Option (List (List String))) (isFileAt : List String → Bool) :
    Option (List String) :=
  match pathEnv with
  | some paths => sysrootSearch isFileAt paths
  | none => none

/-- `ExecutionEngine::new_with_input`: resolve the sysroot (panic when it is
not found), compile the starting input (`.expect(..)` panics on failure),
build the engine with that single module and load its dependencies (panic on
a load failure).  Every panic is fatal: no engine is constructed, modelled as
`none`. -/
def ExecutionEngine.new_with_input (compile : CompileOracle) (loadLib : LoadOracle)
    (pathEnv : Option (List (List String))) (isFileAt : List String → Bool)
    (input : String) (libs : List String) : Option ExecutionEngine :=
  match get_sysroot pathEnv isFileAt with
  | none => none
  | some sysroot =>
    match compile input sysroot libs with
    | none => none
    | some (llmod, deps) =>
      if load_deps loadLib deps then
        some { modules := [llmod], lib_paths := libs, sysroot := sysroot }
      else
        none

/-- The shape of a statement as inspected by the `ExprType` visitor: either a
`StmtSemi` wrapping a bare expression (identified by its node id), or any
other statement form. -/
inductive StmtNode where
  | semi : Nat → StmtNode
  | other : StmtNode
deriving DecidableEq

/-- A function item of the analysed crate, as seen by `visit_fn` through
`FkItemFn`: its identifier and the statements of its block. -/
structure FnItem where
  name : String
  body : List StmtNode
deriving DecidableEq

/-- `ty::CrateAnalysis` as consumed by the `ExprType` visitor: the crate's
function items (in visit order) and the `node_types` table mapping an
expression's node id to its rendered type (`ty.repr(ty_cx)`). -/
structure Analysis where
  fns : List FnItem
  node_types : List (Nat × String)
deriving DecidableEq

/-- One `visit_fn` step of the `ExprType` visitor: when the function's name
matches, its block's last statement is a `StmtSemi` expression and
`node_types` records a type for it, overwrite the result; otherwise keep the
accumulated result. -/
def visitFn (a : Analysis) (fn_name : String) (acc : Option String) (f : FnItem) :
    Option String :=
  if f.name = fn_name then
    match f.body.getLast? with
    | some (StmtNode.semi id) =>
      match a.node_types.lookup id with
      | some ty => some ty
      | none => acc
    | some StmtNode.other => acc
    | none => acc
  else
    acc

/-- `visit::walk_crate(&mut v, ...)` over the `ExprType` visitor: fold
`visit_fn` over the crate's function items, starting from `result: None`. -/
def walkCrate (a : Analysis) (fn_name : String) : Option String :=
  a.fns.foldl (visitFn a fn_name) none

/-- An analysis oracle stands for phases 1-3 of the spawned worker of
`with_analysis` in `exec.rs`: from the source text, sysroot and search paths
it yields the `CrateAnalysis`, or `none` when compilation to the analysis
stage fails (the worker panicked). -/
def AnalysisOracle : Type := String → List String → List String → Option Analysis

/-- `with_analysis` of `exec.rs`: run the analysis compilation on a worker
whose stderr is a `NullWriter`, apply `f` to the analysis inside the worker,
and `join`.  A panic of either stage makes `join` return `Err`, turned into
`none` by `res.ok()`; the panic's message is written only to the worker's
suppressed stderr, so it never reaches the caller (`f` returning
`Except.error msg` models `f` panicking with that message). -/
def with_analysis {R : Type} (ca : AnalysisOracle) (f : Analysis → Except String R)
    (input : String) (sysroot : List String) (lib_paths : List String) : Option R :=
  match ca input sysroot lib_paths with
  | none => none
  | some a => (f a).toOption

/-- `ExecutionEngine::with_analysis`: delegate to the free `with_analysis`
with the engine's sysroot and search paths. -/
def ExecutionEngine.with_analysis {R : Type} (ee : ExecutionEngine) (ca : AnalysisOracle)
    (input : String) (f : Analysis → Except String R) : Option R :=
  Rusti.with_analysis ca f input ee.sysroot ee.lib_paths

/-- The closure passed to `with_analysis` by `Repl::expr_type`: walk the
crate; if a type was recorded return it, otherwise panic with
`"no type found"` (modelled as `Except.error "no type found"`). -/
def expr_type_inner (fn_name : String) (a : Analysis) : Except String String :=
  match walkCrate a fn_name with
  | some ty => Except.ok ty
  | none => Except.error "no type found"

/-- `Repl::expr_type`: request an analysis-only compilation of `prog` and
extract the inferred type of the probe function's final expression. -/
def Repl.expr_type (ca : AnalysisOracle) (r : Repl) (fn_name : String) (prog : String) :
    Option String :=
  r.engine.with_analysis ca prog (expr_type_inner fn_name)

/-- The probe function name generated by `Repl::type_command` for a type
query (`let name = "_rusti_type";`): a fixed constant, whatever the queried
expression is. -/
def probe_fn_name (expr : String) : String := "_rusti_type"

/-- The probe function text of `Repl::type_command`:
`fn {name}() { { <expr> }; }` with the braces written out. -/
def type_probe_body (name : String) (expr : String) : String :=
  "\nfn " ++ name ++ "() \x7b\n" ++ ( "\x7b " ++ expr ++ " \x7d;" ) ++ "\n\x7d\n"

/-- The full program synthesized by `Repl::type_command`: the session merged
with no new input, followed by the probe function. -/
def type_probe_program (r : Repl) (expr : String) : String :=
  build_program r none (type_probe_body (probe_fn_name expr) expr)

/-- `Repl::type_command`: synthesize the probe program, run `expr_type`, and
print `"{expr} = {ty}"` when a type came back; print nothing otherwise.  The
returned list is the lines printed to the user. -/
def Repl.type_command (ca : AnalysisOracle) (r : Repl) (expr : String) : List String :=
  let prog := type_probe_program r expr
  match r.expr_type ca (probe_fn_name expr) prog with
  | some t => [expr ++ " = " ++ t]
  | none => []

/-- `COMMANDS` of `repl.rs`: the fixed command table. -/
def COMMANDS : List String := ["block", "type"]

/-- Rust's `str::starts_with`: the candidate prefix's characters are an
initial segment of the string's characters. -/
def str_starts_with (s pre : String) : Bool :=
  pre.data.isPrefixOf s.data

/-- `lookup_command`: return the first table entry of which `name` is a
prefix (`cmd.starts_with(name)`), or `none`. -/
def lookup_command (name : String) : Option String :=
  COMMANDS.find? (fun cmd => str_starts_with cmd name)

/-- `Repl::handle_command`: dispatch on `lookup_command`.  `block` with
arguments or `type` without an argument print a usage message; `block` sets
the `read_block` flag; `type` runs the type query; anything else prints
`unrecognized command `name``.  Result: the new `Repl` and the printed
lines. -/
def Repl.handle_command (ca : AnalysisOracle) (r : Repl) (cmd : String)
    (args : Option String) : Repl × List String :=
  match lookup_command cmd with
  | some "block" =>
    match args with
    | some _ => (r, ["command `block` takes no arguments"])
    | none => ({ r with read_block := true }, [])
  | some "type" =>
    match args with
    | some a => (r, r.type_command ca a)
    | none => (r, ["command `type` expects an expression"])
  | _ => (r, ["unrecognized command `" ++ cmd ++ "`"])

/-- The entry function name generated by `Repl::handle_input` for a round
(`let name = "_rusti_run";`): a fixed constant, whatever the round's input
is. -/
def entry_fn_name (i : Input) : String := "_rusti_run"

/-- The rewrite of the final statement in `Repl::handle_input`: when
`last_expr` holds and there are statements, the last statement `s` becomes
`println!("{}", { s });`. -/
def wrap_print_last (stmt : String) : String :=
  "println!(\"\x7b\x7d\", \x7b " ++ stmt ++ " \x7d);"

/-- The statement list after the `last_expr` rewrite of
`Repl::handle_input`. -/
def rewritten_statements (i : Input) : List String :=
  if i.last_expr then
    match i.statements.getLast? with
    | some s => i.statements.dropLast ++ [wrap_print_last s]
    | none => i.statements
  else
    i.statements

/-- The entry-function text of `Repl::handle_input`: the `#[no_mangle]`
entry function whose body wraps `_rusti_inner` in
`std::rt::unwind::try` (the fault-catching boundary), and `_rusti_inner`
holding the round's statements. -/
def entry_wrapper (name : String) (stmts : String) : String :=
  "\n#[no_mangle]\npub fn " ++ name
    ++ "() \x7b\n    let _ = unsafe \x7b std::rt::unwind::try(_rusti_inner) \x7d;\n\x7d\n\nfn _rusti_inner() \x7b\n"
    ++ stmts ++ "\n\x7d\n"

/-- The full program text `Repl::handle_input` submits to the engine for a
round. -/
def round_program (r : Repl) (i : Input) : String :=
  build_program r (some i)
    (entry_wrapper (entry_fn_name i) (String.intercalate "\n" (rewritten_statements i)))

/-- `Repl::handle_input`: rewrite the statements, synthesize the program, and
submit it with `add_module`.  On compile failure nothing further happens (the
frontend already printed diagnostics to stderr).  On success the entry symbol
is resolved (`unwrap` of a missing symbol is a fatal panic, `Except.error`),
the entry function is invoked — `execFault` says whether the user code
faulted internally, which the generated boundary intercepts and discards
(`let _ = ... try(..)`) — and the input's attributes, view-items and items
are appended to the session. -/
def Repl.handle_input (compile : CompileOracle) (loadLib : LoadOracle) (execFault : Bool)
    (r : Repl) (input : Input) : Except String (Repl × List String) :=
  match ExecutionEngine.add_module compile loadLib r.engine (round_program r input) with
  | Except.error e => Except.error e
  | Except.ok none => Except.ok (r, [])
  | Except.ok (some (engine2, _m)) =>
    match engine2.get_function (entry_fn_name input) with
    | none => Except.error "called Option::unwrap on a None value"
    | some _fp =>
      Except.ok
        ({ engine := engine2,
           attributes := r.attributes ++ input.attributes,
           view_items := r.view_items ++ input.view_items,
           items := r.items ++ input.items,
           read_block := r.read_block }, [])

/-- `InputResult` of the missing `input.rs`, with exactly the variants
matched by `Repl::run` (`Command`, `Program`, `Empty`, `More`, `Eof`,
`InputError`). -/
inductive InputResult where
  | Command : String → Option String → InputResult
  | Program : Input → InputResult
  | Empty : InputResult
  | More : InputResult
  | Eof : InputResult
  | InputError : Option String → InputResult

/-- One iteration of the `Repl::run` loop after the input was read: dispatch
the parse result.  The returned triple is the new `Repl`, the new `more`
flag, and the printed lines; `Except.error` is a fatal panic of the round. -/
def Repl.handle_res (compile : CompileOracle) (loadLib : LoadOracle) (ca : AnalysisOracle)
    (execFault : Bool) (r : Repl) (more : Bool) (res : InputResult) :
    Except String (Repl × Bool × List String) :=
  match res with
  | InputResult.Command name args =>
    let p := r.handle_command ca name args
    Except.ok (p.1, more, p.2)
  | InputResult.Program i =>
    match r.handle_input compile loadLib execFault i with
    | Except.error e => Except.error e
    | Except.ok p => Except.ok (p.1, false, p.2)
  | InputResult.Empty => Except.ok (r, more, [])
  | InputResult.More => Except.ok (r, true, [])
  | InputResult.Eof => Except.ok (r, more, [])
  | InputResult.InputError msg =>
    Except.ok (r, false,
      match msg with
      | some e => [e]
      | none => [])

/-! ## Helper lemmas -/

/-- Whether a tagged view-item is a crate import. -/
def isCrate (v : ViewItem × String) : Bool :=
  match v.1 with
  | ViewItem.ExternCrate => true
  | ViewItem.Use => false

theorem viewItemPairLe_trans (a b c : ViewItem × String) :
    viewItemPairLe a b = true → viewItemPairLe b c = true → viewItemPairLe a c = true := by
  cases a with
  | mk a1 a2 =>
    cases b with
    | mk b1 b2 =>
      cases c with
      | mk c1 c2 =>
        cases a1 <;> cases b1 <;> cases c1 <;> simp [viewItemPairLe, ViewItem.le]

theorem viewItemPairLe_total (a b : ViewItem × String) :
    (viewItemPairLe a b || viewItemPairLe b a) = true := by
  cases a with
  | mk a1 a2 =>
    cases b with
    | mk b1 b2 =>
      cases a1 <;> cases b1 <;> simp [viewItemPairLe, ViewItem.le]

theorem viewItemPairLe_of_isCrate (a b : ViewItem × String) (h : isCrate a = true) :
    viewItemPairLe a b = true := by
  cases a with
  | mk a1 a2 =>
    cases a1
    · cases b with
      | mk b1 b2 => cases b1 <;> simp [viewItemPairLe, ViewItem.le]
    · simp [isCrate] at h

theorem not_viewItemPairLe_iff (a b : ViewItem × String) (ha : isCrate a = false) :
    ((!viewItemPairLe a b) = true) ↔ isCrate b = true := by
  cases a with
  | mk a1 a2 =>
    cases b with
    | mk b1 b2 =>
      cases a1 <;> cases b1 <;> simp_all [viewItemPairLe, ViewItem.le, isCrate]

/-- A list that splits both as `trues ++ falses` and as `trues₂ ++ falses₂`
under the same Boolean predicate splits uniquely. -/
theorem append_filter_unique {α : Type} (p : α → Bool) :
    ∀ (l₁ l₂ c u : List α),
      (∀ x ∈ l₁, p x = true) → (∀ x ∈ l₂, p x = false) →
      (∀ x ∈ c, p x = true) → (∀ x ∈ u, p x = false) →
      l₁ ++ l₂ = c ++ u → l₁ = c ∧ l₂ = u := by
  intro l₁
  induction l₁ with
  | nil =>
    intro l₂ c u _ h₂ hc _ he
    cases c with
    | nil => exact ⟨rfl, by simpa using he⟩
    | cons x c2 =>
      exfalso
      have hx : x ∈ l₂ := by
        have : l₂ = x :: (c2 ++ u) := by simpa using he
        simp [this]
      have := h₂ x hx
      have := hc x (by simp)
      simp_all
  | cons a t ih =>
    intro l₂ c u h₁ h₂ hc hu he
    cases c with
    | nil =>
      exfalso
      have ha : a ∈ u := by
        have : a :: (t ++ l₂) = u := by simpa using he
        simp [← this]
      have := hu a ha
      have := h₁ a (by simp)
      simp_all
    | cons x c2 =>
      have hax : a = x ∧ t ++ l₂ = c2 ++ u := by
        constructor
        · have := congrArg (fun l => List.head? l) he
          simpa using this
        · have := congrArg (fun l => List.tail l) he
          simpa using this
      obtain ⟨rfl, he2⟩ := hax
      obtain ⟨ht, hl⟩ := ih l₂ c2 u (fun x hx => h₁ x (by simp [hx])) h₂
        (fun x hx => hc x (by simp [hx])) hu he2
      exact ⟨by rw [ht], hl⟩

/-- Stable sort of view-item pairs by tag: the result is exactly the crate
imports (in input order) followed by the other imports (in input order). -/
theorem mergeSort_viewItems (l : List (ViewItem × String)) :
    l.mergeSort viewItemPairLe =
      l.filter isCrate ++ l.filter (fun v => !(isCrate v)) := by
  induction l with
  | nil => simp
  | cons a t ih =>
    obtain ⟨l₁, l₂, h₁, h₂, h₃⟩ :=
      List.mergeSort_cons viewItemPairLe_trans viewItemPairLe_total a t
    by_cases hca : isCrate a = true
    · have hl₁ : l₁ = [] := by
        cases l₁ with
        | nil => rfl
        | cons b l₁t =>
          exfalso
          have := h₃ b (by simp)
          have := viewItemPairLe_of_isCrate a b hca
          simp_all
      subst hl₁
      simp only [List.nil_append] at h₁ h₂
      rw [h₁, List.filter_cons, List.filter_cons, hca]
      simp only [Bool.not_true, if_true]
      rw [← h₂, ih]
      simp
    · have hca2 : isCrate a = false := by simpa using hca
      have hl₁c : ∀ x ∈ l₁, isCrate x = true := by
        intro x hx
        exact (not_viewItemPairLe_iff a x hca2).mp (h₃ x hx)
      have hsorted := List.sorted_mergeSort viewItemPairLe_trans viewItemPairLe_total (a :: t)
      rw [h₁] at hsorted
      have hl₂u : ∀ x ∈ l₂, isCrate x = false := by
        have hpc := (List.pairwise_append.mp hsorted).2.1
        intro x hx
        have hax : viewItemPairLe a x = true := (List.pairwise_cons.mp hpc).1 x hx
        cases hxx : isCrate x
        · rfl
        · exfalso
          have : (!viewItemPairLe a x) = true := by
            exact (not_viewItemPairLe_iff a x hca2).mpr hxx
          simp_all
      have hfc : ∀ x ∈ t.filter isCrate, isCrate x = true := by
        intro x hx
        exact (List.mem_filter.mp hx).2
      have hfu : ∀ x ∈ t.filter (fun v => !(isCrate v)), isCrate x = false := by
        intro x hx
        have := (List.mem_filter.mp hx).2
        simpa using this
      have heq : l₁ ++ l₂ = t.filter isCrate ++ t.filter (fun v => !(isCrate v)) := by
        rw [← h₂, ih]
      obtain ⟨he₁, he₂⟩ :=
        append_filter_unique isCrate l₁ l₂ (t.filter isCrate)
          (t.filter (fun v => !(isCrate v))) hl₁c hl₂u hfc hfu heq
      rw [h₁, he₁, he₂, List.filter_cons, List.filter_cons, hca2]
      simp

/-! ## Claim theorems -/

/-- C2: for every session view-item sequence and every (possibly absent)
input view-item sequence, the view-item sequence emitted into the synthesized
source text by `build_program` lists all crate-import view-items before all
other-import view-items, and within each tag the relative order equals the
order of the concatenation `session.view_items ++ input.view_items` (a stable
sort by tag): the emitted sequence is exactly the crate imports of the
concatenation, in order, followed by its other imports, in order. -/
theorem view_items_crate_before_use (r : Repl) (i : Input) :
    program_view_items r (some i) =
      (r.view_items ++ i.view_items).filter isCrate ++
        (r.view_items ++ i.view_items).filter (fun v => !(isCrate v)) ∧
    program_view_items r none =
      r.view_items.filter isCrate ++ r.view_items.filter (fun v => !(isCrate v)) :=
  ⟨mergeSort_viewItems (r.view_items ++ i.view_items), mergeSort_viewItems r.view_items⟩

/-- C4: `build_program` is pure and deterministic — it reads only the three
session sequences, the optional input and the trailing body, so two calls
whose arguments agree on those produce byte-identical source text, whatever
the rest of the REPL state (engine, block flag) is. -/
theorem build_program_deterministic (r₁ r₂ : Repl) (input : Option Input) (program : String)
    (ha : r₁.attributes = r₂.attributes) (hv : r₁.view_items = r₂.view_items)
    (hi : r₁.items = r₂.items) :
    build_program r₁ input program = build_program r₂ input program := by
  cases input <;> simp [build_program, program_view_items, ha, hv, hi]

/-- Witness for C4: two `Repl` states with different engines and block flags
but identical session sequences synthesize identical text. -/
theorem build_program_deterministic_witness :
    build_program
      { engine := { modules := [], lib_paths := [], sysroot := [] },
        attributes := ["#[feature(x)]"],
        view_items := [(ViewItem.Use, "use std::mem;")],
        items := ["fn f() \x7b \x7d"],
        read_block := false }
      none "body"
    = build_program
      { engine := { modules := [{ functions := [("g", 1)], globals := [] }],
                    lib_paths := ["/lib"], sysroot := ["usr"] },
        attributes := ["#[feature(x)]"],
        view_items := [(ViewItem.Use, "use std::mem;")],
        items := ["fn f() \x7b \x7d"],
        read_block := true }
      none "body" :=
  build_program_deterministic _ _ none "body" rfl rfl rfl

theorem scanModules_eq_none (f : ModuleRef → Option Nat) :
    ∀ l : List ModuleRef, (∀ m ∈ l, f m = none) → scanModules f l = none := by
  intro l
  induction l with
  | nil => intro _; rfl
  | cons m rest ih =>
    intro h
    have hm := h m (by simp)
    simp [scanModules, hm]
    exact ih (fun x hx => h x (by simp [hx]))

theorem scanModules_append_of_none (f : ModuleRef → Option Nat) :
    ∀ l₁ l₂ : List ModuleRef, (∀ m ∈ l₁, f m = none) →
      scanModules f (l₁ ++ l₂) = scanModules f l₂ := by
  intro l₁
  induction l₁ with
  | nil => intro l₂ _; rfl
  | cons m rest ih =>
    intro l₂ h
    have hm := h m (by simp)
    simp [scanModules, hm]
    exact ih l₂ (fun x hx => h x (by simp [hx]))

theorem scanModules_rev_last (f : ModuleRef → Option Nat) (pre : List ModuleRef)
    (m : ModuleRef) (post : List ModuleRef) (hm : (f m).isSome = true)
    (hpost : ∀ m2 ∈ post, f m2 = none) :
    scanModules f (pre ++ m :: post).reverse = f m := by
  have hrev : (pre ++ m :: post).reverse = post.reverse ++ m :: pre.reverse := by
    simp
  rw [hrev, scanModules_append_of_none f post.reverse (m :: pre.reverse)
    (fun x hx => hpost x (List.mem_reverse.mp hx))]
  obtain ⟨v, hv⟩ := Option.isSome_iff_exists.mp hm
  simp [scanModules, hv]

/-- C3: `get_function` and `get_global` scan the engine's module sequence in
reverse registration order and return the address from the most recently
registered module defining the name.  Conjuncts: (1)/(2) when no module
defines the name the result is `none`, not an error; (3)/(4) when a module
defines the name and no later-registered module does, its address is
returned; (5)/(6) in particular, when two registered modules both define the
name and no module after the second does, the later-registered module's
address wins. -/
theorem symbol_lookup_shadows (ee : ExecutionEngine) (name : String) :
    ((∀ m ∈ ee.modules, m.functions.lookup name = none) →
      ee.get_function name = none) ∧
    ((∀ m ∈ ee.modules, m.globals.lookup name = none) →
      ee.get_global name = none) ∧
    (∀ pre m post, ee.modules = pre ++ m :: post →
      (m.functions.lookup name).isSome = true →
      (∀ m2 ∈ post, m2.functions.lookup name = none) →
      ee.get_function name = m.functions.lookup name) ∧
    (∀ pre m post, ee.modules = pre ++ m :: post →
      (m.globals.lookup name).isSome = true →
      (∀ m2 ∈ post, m2.globals.lookup name = none) →
      ee.get_global name = m.globals.lookup name) ∧
    (∀ l₁ m₁ l₂ m₂ l₃ a₁ a₂, ee.modules = l₁ ++ m₁ :: (l₂ ++ m₂ :: l₃) →
      m₁.functions.lookup name = some a₁ →
      m₂.functions.lookup name = some a₂ →
      (∀ m3 ∈ l₃, m3.functions.lookup name = none) →
      ee.get_function name = some a₂) ∧
    (∀ l₁ m₁ l₂ m₂ l₃ a₁ a₂, ee.modules = l₁ ++ m₁ :: (l₂ ++ m₂ :: l₃) →
      m₁.globals.lookup name = some a₁ →
      m₂.globals.lookup name = some a₂ →
      (∀ m3 ∈ l₃, m3.globals.lookup name = none) →
      ee.get_global name = some a₂) := by
  refine ⟨?_, ?_, ?_, ?_, ?_, ?_⟩
  · intro h
    exact scanModules_eq_none _ _ (fun m hm => h m (List.mem_reverse.mp hm))
  · intro h
    exact scanModules_eq_none _ _ (fun m hm => h m (List.mem_reverse.mp hm))
  · intro pre m post hmods hm hpost
    unfold ExecutionEngine.get_function
    rw [hmods]
    exact scanModules_rev_last _ pre m post hm hpost
  · intro pre m post hmods hm hpost
    unfold ExecutionEngine.get_global
    rw [hmods]
    exact scanModules_rev_last _ pre m post hm hpost
  · intro l₁ m₁ l₂ m₂ l₃ a₁ a₂ hmods h₁ h₂ h₃
    unfold ExecutionEngine.get_function
    rw [hmods]
    have : l₁ ++ m₁ :: (l₂ ++ m₂ :: l₃) = (l₁ ++ m₁ :: l₂) ++ m₂ :: l₃ := by simp
    rw [this, scanModules_rev_last _ (l₁ ++ m₁ :: l₂) m₂ l₃ (by simp [h₂]) h₃, h₂]
  · intro l₁ m₁ l₂ m₂ l₃ a₁ a₂ hmods h₁ h₂ h₃
    unfold ExecutionEngine.get_global
    rw [hmods]
    have : l₁ ++ m₁ :: (l₂ ++ m₂ :: l₃) = (l₁ ++ m₁ :: l₂) ++ m₂ :: l₃ := by simp
    rw [this, scanModules_rev_last _ (l₁ ++ m₁ :: l₂) m₂ l₃ (by simp [h₂]) h₃, h₂]

/-- Witness for C3: an engine holding two modules that both export `f` (as a
function and as a global); lookup returns the later-registered module's
addresses, and a name exported by no module yields `none`. -/
theorem symbol_lookup_shadows_witness :
    ExecutionEngine.get_function
      { modules := [{ functions := [("f", 1)], globals := [("f", 11)] },
                    { functions := [("f", 2)], globals := [("f", 12)] }],
        lib_paths := [], sysroot := [] } "f" = some 2 ∧
    ExecutionEngine.get_global
      { modules := [{ functions := [("f", 1)], globals := [("f", 11)] },
                    { functions := [("f", 2)], globals := [("f", 12)] }],
        lib_paths := [], sysroot := [] } "f" = some 12 ∧
    ExecutionEngine.get_function
      { modules := [{ functions := [("f", 1)], globals := [("f", 11)] },
                    { functions := [("f", 2)], globals := [("f", 12)] }],
        lib_paths := [], sysroot := [] } "g" = none := by
  refine ⟨?_, ?_, ?_⟩
  · exact (symbol_lookup_shadows _ "f").2.2.2.2.1 [] _ [] _ [] 1 2 rfl rfl rfl
      (by intro m3 h; simp at h)
  · exact (symbol_lookup_shadows _ "f").2.2.2.2.2 [] _ [] _ [] 11 12 rfl rfl rfl
      (by intro m3 h; simp at h)
  · exact (symbol_lookup_shadows _ "g").1 (by decide)

theorem listPosition_eq_none (a : ModuleRef) :
    ∀ l : List ModuleRef, a ∉ l → listPosition (fun p => p == a) l = none := by
  intro l
  induction l with
  | nil => intro _; rfl
  | cons x xs ih =>
    intro h
    have hxa : (x == a) = false := by
      simp only [beq_eq_false_iff_ne]
      intro he
      exact h (he ▸ List.mem_cons_self x xs)
    simp [listPosition, hxa, ih (fun hm => h (List.mem_cons_of_mem x hm))]

theorem listPosition_erase (a : ModuleRef) :
    ∀ l : List ModuleRef, a ∈ l →
      ∃ i, listPosition (fun p => p == a) l = some i ∧ l.eraseIdx i = l.erase a := by
  intro l
  induction l with
  | nil =>
    intro h
    exact absurd h (List.not_mem_nil a)
  | cons x xs ih =>
    intro h
    by_cases hxa : (x == a) = true
    · refine ⟨0, by simp [listPosition, hxa], ?_⟩
      simp [List.erase_cons, hxa]
    · have hxa2 : (x == a) = false := by simpa using hxa
      have hmem : a ∈ xs := by
        rcases List.mem_cons.mp h with h1 | h1
        · exfalso
          rw [h1] at hxa2
          simp at hxa2
        · exact h1
      obtain ⟨i, hi, he⟩ := ih hmem
      refine ⟨i + 1, by simp [listPosition, hxa2, hi], ?_⟩
      simp [List.erase_cons, hxa2, ← he]

/-- C10: for a module handle not present in the engine's module sequence,
`remove_module` panics (modelled as `none`); for a present handle it removes
exactly the first matching entry — the sequence becomes `modules.erase m`,
one shorter — and returns that module as the one whose backing resources are
destroyed (`LLVMDisposeModule`). -/
theorem remove_module_exact (ee : ExecutionEngine) (m : ModuleRef) :
    (m ∉ ee.modules → ee.remove_module m = none) ∧
    (m ∈ ee.modules →
      ee.remove_module m = some ({ ee with modules := ee.modules.erase m }, m) ∧
      (ee.modules.erase m).length + 1 = ee.modules.length) := by
  constructor
  · intro h
    unfold ExecutionEngine.remove_module
    rw [listPosition_eq_none m ee.modules h]
  · intro h
    obtain ⟨i, hi, he⟩ := listPosition_erase m ee.modules h
    constructor
    · unfold ExecutionEngine.remove_module
      rw [hi]
      simp [he]
    · have hlen : (ee.modules.erase m).length = ee.modules.length - 1 :=
        List.length_erase_of_mem h
      have hpos : 0 < ee.modules.length := List.length_pos.mpr (List.ne_nil_of_mem h)
      omega

/-- Witness for C10: removing a present module erases exactly that entry and
returns it for disposal; removing an absent one panics. -/
theorem remove_module_exact_witness :
    ExecutionEngine.remove_module
      { modules := [{ functions := [("a", 1)], globals := [] },
                    { functions := [("b", 2)], globals := [] }],
        lib_paths := [], sysroot := [] }
      { functions := [("a", 1)], globals := [] }
    = some ({ modules := [{ functions := [("b", 2)], globals := [] }],
              lib_paths := [], sysroot := [] },
            { functions := [("a", 1)], globals := [] }) ∧
    ExecutionEngine.remove_module
      { modules := [{ functions := [("a", 1)], globals := [] }],
        lib_paths := [], sysroot := [] }
      { functions := [("c", 3)], globals := [] }
    = none := by
  constructor
  · have h := (remove_module_exact
      { modules := [{ functions := [("a", 1)], globals := [] },
                    { functions := [("b", 2)], globals := [] }],
        lib_paths := [], sysroot := [] }
      { functions := [("a", 1)], globals := [] }).2 (by decide)
    rw [h.1]
    congr 1
  · exact (remove_module_exact
      { modules := [{ functions := [("a", 1)], globals := [] }],
        lib_paths := [], sysroot := [] }
      { functions := [("c", 3)], globals := [] }).1 (by decide)

theorem sysrootSearch_found (isFileAt : List String → Bool) :
    ∀ pre p post, (∀ q ∈ pre, isFileAt (q ++ ["rustc"]) = false) →
      isFileAt (p ++ ["rustc"]) = true →
      sysrootSearch isFileAt (pre ++ p :: post) = some p.dropLast := by
  intro pre
  induction pre with
  | nil =>
    intro p post _ hp
    simp [sysrootSearch, hp]
  | cons q pre2 ih =>
    intro p post hpre hp
    have hq := hpre q (by simp)
    simp only [List.cons_append, sysrootSearch, hq]
    simp only [Bool.false_eq_true, if_false]
    exact ih p post (fun x hx => hpre x (by simp [hx])) hp

theorem sysrootSearch_not_found (isFileAt : List String → Bool) :
    ∀ paths, (∀ p ∈ paths, isFileAt (p ++ ["rustc"]) = false) →
      sysrootSearch isFileAt paths = none := by
  intro paths
  induction paths with
  | nil => intro _; rfl
  | cons p rest ih =>
    intro h
    have hp := h p (by simp)
    simp [sysrootSearch, hp, ih (fun x hx => h x (by simp [hx]))]

/-- C9: engine initialization resolves the sysroot by scanning the `PATH`
directories for the toolchain's own `rustc` executable; the first directory
`p` containing it yields `p.pop()` — the parent of the directory holding the
executable (`/usr/local/bin/rustc` gives sysroot `/usr/local`) — and when no
directory contains the executable (or `PATH` is unset) the lookup panics
(`none`) and `new_with_input` constructs no engine. -/
theorem sysroot_resolution (pathEnv : Option (List (List String)))
    (isFileAt : List String → Bool) (compile : CompileOracle) (loadLib : LoadOracle)
    (input : String) (libs : List String) :
    (∀ pre p post, pathEnv = some (pre ++ p :: post) →
      (∀ q ∈ pre, isFileAt (q ++ ["rustc"]) = false) →
      isFileAt (p ++ ["rustc"]) = true →
      get_sysroot pathEnv isFileAt = some p.dropLast) ∧
    ((∀ paths, pathEnv = some paths → ∀ p ∈ paths, isFileAt (p ++ ["rustc"]) = false) →
      get_sysroot pathEnv isFileAt = none ∧
      ExecutionEngine.new_with_input compile loadLib pathEnv isFileAt input libs = none) := by
  constructor
  · intro pre p post henv hpre hp
    rw [henv]
    unfold get_sysroot
    exact sysrootSearch_found isFileAt pre p post hpre hp
  · intro h
    have hnone : get_sysroot pathEnv isFileAt = none := by
      cases pathEnv with
      | none => rfl
      | some paths =>
        unfold get_sysroot
        exact sysrootSearch_not_found isFileAt paths (h paths rfl)
    refine ⟨hnone, ?_⟩
    unfold ExecutionEngine.new_with_input
    rw [hnone]

/-- Witness for C9: with `PATH = /usr/local/bin` and `rustc` present there,
the sysroot is `/usr/local`; with `rustc` nowhere, no engine is built. -/
theorem sysroot_resolution_witness :
    get_sysroot (some [["usr", "local", "bin"]])
      (fun l => l == ["usr", "local", "bin", "rustc"]) = some ["usr", "local"] ∧
    ExecutionEngine.new_with_input (fun _ _ _ => none) (fun _ => true)
      (some [["opt", "bin"]]) (fun _ => false) "" [] = none := by
  constructor
  · exact (sysroot_resolution (some [["usr", "local", "bin"]])
      (fun l => l == ["usr", "local", "bin", "rustc"]) (fun _ _ _ => none) (fun _ => true)
      "" []).1 [] ["usr", "local", "bin"] [] rfl (by intro q hq; simp at hq) (by decide)
  · exact ((sysroot_resolution (some [["opt", "bin"]]) (fun _ => false)
      (fun _ _ _ => none) (fun _ => true) "" []).2
      (by intro paths _ p _; rfl)).2

/-! Concrete fixtures for the witness theorems. -/

/-- A module exporting the generated entry symbol. -/
def modW : ModuleRef := { functions := [("_rusti_run", 5)], globals := [] }

/-- A compile oracle that always succeeds with `modW` and no dependencies. -/
def compileW : CompileOracle := fun _ _ _ => some (modW, [])

/-- A compile oracle that always fails (a rejected program). -/
def compileFailW : CompileOracle := fun _ _ _ => none

/-- A load oracle that always succeeds. -/
def loadW : LoadOracle := fun _ => true

/-- An analysis oracle that always fails. -/
def caW : AnalysisOracle := fun _ _ _ => none

/-- The freshly constructed REPL state (empty session). -/
def r0 : Repl :=
  { engine := { modules := [], lib_paths := [], sysroot := [] },
    attributes := [], view_items := [], items := [], read_block := false }

/-- A concrete round input carrying one entry of each declaration kind. -/
def i0 : Input :=
  { attributes := ["#[test]"],
    view_items := [(ViewItem.ExternCrate, "extern crate x;")],
    items := ["fn g();"],
    statements := ["1 + 1"],
    last_expr := true }

/-- The engine after `modW` was registered into `r0`'s engine. -/
def eng2W : ExecutionEngine := { modules := [modW], lib_paths := [], sysroot := [] }

/-- The REPL state after the `i0` round commits from `r0`. -/
def replAfter : Repl :=
  { engine := eng2W,
    attributes := i0.attributes,
    view_items := i0.view_items,
    items := i0.items,
    read_block := false }

/-- C1: SessionState mutation is all-or-nothing per round.  Conjuncts:
(1) a round whose compilation fails leaves the REPL state identical (and
prints nothing beyond the frontend's own diagnostics); (2) a round whose
compilation succeeds appends exactly the round's attributes, view-items and
items at the end of the three session sequences, in order; (3) whatever the
compile outcome, any non-fatal round either appends all three or changes
nothing; (4) a `ParseError` round (`InputError`) leaves the state unchanged
in every field. -/
theorem session_state_atomic (compile : CompileOracle) (loadLib : LoadOracle)
    (ca : AnalysisOracle) (ef : Bool) (r : Repl) (i : Input) (msg : Option String) :
    (ExecutionEngine.add_module compile loadLib r.engine (round_program r i) = Except.ok none →
      r.handle_res compile loadLib ca ef false (InputResult.Program i) =
        Except.ok (r, false, [])) ∧
    (∀ eng2 m r2 more2 out,
      ExecutionEngine.add_module compile loadLib r.engine (round_program r i) =
        Except.ok (some (eng2, m)) →
      r.handle_res compile loadLib ca ef false (InputResult.Program i) =
        Except.ok (r2, more2, out) →
      r2.attributes = r.attributes ++ i.attributes ∧
      r2.view_items = r.view_items ++ i.view_items ∧
      r2.items = r.items ++ i.items) ∧
    (∀ r2 more2 out,
      r.handle_res compile loadLib ca ef false (InputResult.Program i) =
        Except.ok (r2, more2, out) →
      (r2.attributes = r.attributes ++ i.attributes ∧
        r2.view_items = r.view_items ++ i.view_items ∧
        r2.items = r.items ++ i.items) ∨ r2 = r) ∧
    (∀ more, r.handle_res compile loadLib ca ef more (InputResult.InputError msg) =
      Except.ok (r, false,
        match msg with
        | some e => [e]
        | none => [])) := by
  refine ⟨?_, ?_, ?_, ?_⟩
  · intro hadd
    simp [Repl.handle_res, Repl.handle_input, hadd]
  · intro eng2 m r2 more2 out hadd hres
    simp only [Repl.handle_res, Repl.handle_input, hadd] at hres
    cases hgf : eng2.get_function (entry_fn_name i) with
    | none => rw [hgf] at hres; simp at hres
    | some fp =>
      rw [hgf] at hres
      simp only [Except.ok.injEq, Prod.mk.injEq] at hres
      obtain ⟨hr2, -, -⟩ := hres
      rw [← hr2]
      exact ⟨rfl, rfl, rfl⟩
  · intro r2 more2 out hres
    cases hadd : ExecutionEngine.add_module compile loadLib r.engine (round_program r i) with
    | error e =>
      simp [Repl.handle_res, Repl.handle_input, hadd] at hres
    | ok o =>
      cases o with
      | none =>
        right
        simp only [Repl.handle_res, Repl.handle_input, hadd, Except.ok.injEq,
          Prod.mk.injEq] at hres
        exact hres.1.symm
      | some pr =>
        left
        obtain ⟨eng2, m⟩ := pr
        simp only [Repl.handle_res, Repl.handle_input, hadd] at hres
        cases hgf : eng2.get_function (entry_fn_name i) with
        | none => rw [hgf] at hres; simp at hres
        | some fp =>
          rw [hgf] at hres
          simp only [Except.ok.injEq, Prod.mk.injEq] at hres
          obtain ⟨hr2, -, -⟩ := hres
          rw [← hr2]
          exact ⟨rfl, rfl, rfl⟩
  · intro more
    rfl

/-- Witness for C1: from the empty session, a committed `i0` round appends
exactly `i0`'s entries (success clause), and the same round under an
always-failing compiler leaves the state identical (failure clause). -/
theorem session_state_atomic_witness :
    (replAfter.attributes = r0.attributes ++ i0.attributes ∧
      replAfter.view_items = r0.view_items ++ i0.view_items ∧
      replAfter.items = r0.items ++ i0.items) ∧
    r0.handle_res compileFailW loadW caW false false (InputResult.Program i0) =
      Except.ok (r0, false, []) := by
  constructor
  · exact (session_state_atomic compileW loadW caW false r0 i0 none).2.1
      eng2W modW replAfter false [] rfl rfl
  · exact (session_state_atomic compileFailW loadW caW false r0 i0 none).1 rfl

/-- C5: compilation success, not execution success, gates commit.  When
`add_module` succeeds for the round's program and the entry symbol resolves,
`handle_input` commits: the input's attributes, view-items and items are
appended to the session and the compiled module is retained at the end of the
engine's module sequence — and the result does not depend on whether the
round's entry function internally faulted (the generated boundary intercepts
and discards the fault), as the rounds for any two fault outcomes are
identical. -/
theorem compile_success_gates_commit (compile : CompileOracle) (loadLib : LoadOracle)
    (ef : Bool) (r : Repl) (i : Input) (eng2 : ExecutionEngine) (m : ModuleRef)
    (hadd : ExecutionEngine.add_module compile loadLib r.engine (round_program r i) =
      Except.ok (some (eng2, m)))
    (hsym : (eng2.get_function (entry_fn_name i)).isSome = true) :
    r.handle_input compile loadLib ef i =
      Except.ok ({ engine := eng2,
                   attributes := r.attributes ++ i.attributes,
                   view_items := r.view_items ++ i.view_items,
                   items := r.items ++ i.items,
                   read_block := r.read_block }, []) ∧
    eng2.modules = r.engine.modules ++ [m] ∧
    (∀ ef₁ ef₂ : Bool,
      r.handle_input compile loadLib ef₁ i = r.handle_input compile loadLib ef₂ i) := by
  refine ⟨?_, ?_, fun ef₁ ef₂ => rfl⟩
  · obtain ⟨fp, hfp⟩ := Option.isSome_iff_exists.mp hsym
    simp [Repl.handle_input, hadd, hfp]
  · cases hc : compile (round_program r i) r.engine.sysroot r.engine.lib_paths with
    | none => simp [ExecutionEngine.add_module, hc] at hadd
    | some pr =>
      obtain ⟨llmod, deps⟩ := pr
      simp only [ExecutionEngine.add_module, hc] at hadd
      by_cases hl : load_deps loadLib deps = true
      · rw [if_pos hl] at hadd
        simp only [Except.ok.injEq, Option.some.injEq, Prod.mk.injEq] at hadd
        obtain ⟨heng, hm⟩ := hadd
        rw [← heng, ← hm]
      · rw [if_neg hl] at hadd
        simp at hadd

/-- Witness for C5: the `i0` round under the always-succeeding compiler
commits from the empty session, retaining `modW`. -/
theorem compile_success_gates_commit_witness :
    r0.handle_input compileW loadW false i0 =
      Except.ok ({ engine := eng2W,
                   attributes := r0.attributes ++ i0.attributes,
                   view_items := r0.view_items ++ i0.view_items,
                   items := r0.items ++ i0.items,
                   read_block := r0.read_block }, []) ∧
    eng2W.modules = r0.engine.modules ++ [modW] :=
  ⟨(compile_success_gates_commit compileW loadW false r0 i0 eng2W modW rfl rfl).1,
   (compile_success_gates_commit compileW loadW false r0 i0 eng2W modW rfl rfl).2.1⟩

/-- Counterexample to C6: two distinct rounds (different statements) generate
the same entry-function name, and two distinct type queries generate the same
probe-function name — the names are not unique across rounds. -/
theorem generated_names_not_unique :
    ({ attributes := [], view_items := [], items := [], statements := ["1"],
       last_expr := true } : Input) ≠
      { attributes := [], view_items := [], items := [], statements := ["2"],
        last_expr := true } ∧
    entry_fn_name
      { attributes := [], view_items := [], items := [], statements := ["1"],
        last_expr := true } =
      entry_fn_name
        { attributes := [], view_items := [], items := [], statements := ["2"],
          last_expr := true } ∧
    probe_fn_name "1 + 1" = probe_fn_name "2 + 2" := by
  refine ⟨?_, rfl, rfl⟩
  intro h
  have := congrArg Input.statements h
  simp at this

/-- C6 (amended): the entry function of a round and the probe function of a
type query are freshly generated each time, but under fixed names — every
round's entry function is named `_rusti_run` and every query's probe function
is named `_rusti_type`; the names of two distinct rounds (or queries) are
equal, not distinct, re-use being resolved by most-recently-registered-first
symbol lookup. -/
theorem generated_names_constant (i j : Input) (e₁ e₂ : String) :
    entry_fn_name i = entry_fn_name j ∧ entry_fn_name i = "_rusti_run" ∧
    probe_fn_name e₁ = probe_fn_name e₂ ∧ probe_fn_name e₁ = "_rusti_type" :=
  ⟨rfl, rfl, rfl, rfl⟩

/-- An analysis oracle that succeeds with an empty crate (no function items),
so every type lookup misses. -/
def caEmptyW : AnalysisOracle := fun _ _ _ => some { fns := [], node_types := [] }

/-- Counterexample to C7: a type query whose analysis compilation succeeds
but whose lookup misses (no probe function in the crate) prints nothing at
all — the internal `no type found` fault is swallowed by the worker, so the
failure is not surfaced to the user. -/
theorem no_type_found_not_printed :
    r0.type_command caEmptyW "1 + 1" = [] ∧
    expr_type_inner "_rusti_type" { fns := [], node_types := [] } =
      Except.error "no type found" :=
  ⟨rfl, rfl⟩

/-- C7 (amended): for every type query whose analysis compilation succeeds
but whose type lookup misses (probe function not found, final-statement shape
mismatch, or no type recorded), the probe closure faults internally with
message `no type found`; that fault is confined to the analysis worker (whose
stderr is suppressed), `with_analysis` turns it into `none`, and the type
command prints nothing — the message never reaches the user. -/
theorem no_type_found_suppressed (ca : AnalysisOracle) (r : Repl) (expr : String)
    (a : Analysis)
    (hca : ca (type_probe_program r expr) r.engine.sysroot r.engine.lib_paths = some a)
    (hmiss : walkCrate a "_rusti_type" = none) :
    expr_type_inner "_rusti_type" a = Except.error "no type found" ∧
    r.expr_type ca "_rusti_type" (type_probe_program r expr) = none ∧
    r.type_command ca expr = [] := by
  have hinner : expr_type_inner "_rusti_type" a = Except.error "no type found" := by
    unfold expr_type_inner
    rw [hmiss]
  refine ⟨hinner, ?_, ?_⟩
  · unfold Repl.expr_type ExecutionEngine.with_analysis with_analysis
    rw [hca]
    simp [hinner, Except.toOption]
  · unfold Repl.type_command
    have h2 : r.expr_type ca (probe_fn_name expr) (type_probe_program r expr) = none := by
      unfold Repl.expr_type ExecutionEngine.with_analysis with_analysis
      rw [hca]
      simp [Except.toOption,
        show expr_type_inner (probe_fn_name expr) a = Except.error "no type found"
          from hinner]
    simp [h2]

/-- Witness for C7 (amended): the concrete missing-probe analysis. -/
theorem no_type_found_suppressed_witness :
    Repl.expr_type caEmptyW r0 "_rusti_type" (type_probe_program r0 "2 + 2") = none ∧
    Repl.type_command caEmptyW r0 "2 + 2" = [] :=
  ⟨(no_type_found_suppressed caEmptyW r0 "2 + 2" { fns := [], node_types := [] }
      rfl rfl).2.1,
   (no_type_found_suppressed caEmptyW r0 "2 + 2" { fns := [], node_types := [] }
      rfl rfl).2.2⟩

/-- Counterexample to C8: the empty command name is a prefix of more than one
entry of the table (both `block` and `type`), yet handling it does not report
`unrecognized command` — it resolves to the first table entry, `block`, and
enters block mode (`read_block` flips from `false` to `true`). -/
theorem empty_command_enters_block_mode :
    lookup_command "" = some "block" ∧
    r0.read_block = false ∧
    (r0.handle_command caW "" none).1.read_block = true ∧
    (r0.handle_command caW "" none).2 = [] :=
  ⟨rfl, rfl, rfl, rfl⟩

/-- C8 (amended): a command name that is a prefix of zero entries of the
fixed table `{block, type}` reports `unrecognized command `name`` and alters
no REPL state; a name that is a prefix of at least one entry resolves to the
first matching entry in table order — in particular the empty name, the only
string that is a prefix of more than one entry, resolves to `block` rather
than being rejected. -/
theorem unrecognized_command_reports (ca : AnalysisOracle) (r : Repl) (cmd : String)
    (args : Option String)
    (h : ∀ c ∈ COMMANDS, str_starts_with c cmd = false) :
    r.handle_command ca cmd args = (r, ["unrecognized command `" ++ cmd ++ "`"]) ∧
    lookup_command "" = some "block" := by
  refine ⟨?_, rfl⟩
  have hnone : lookup_command cmd = none := by
    unfold lookup_command
    rw [List.find?_eq_none]
    intro c hc
    simp [h c hc]
  simp [Repl.handle_command, hnone]

/-- Witness for C8 (amended): the unknown prefix `xyz` is reported and the
state survives unchanged. -/
theorem unrecognized_command_reports_witness :
    r0.handle_command caW "xyz" none = (r0, ["unrecognized command `xyz`"]) :=
  (unrecognized_command_reports caW r0 "xyz" none (by decide)).1

end Rusti
